import Mathlib

/-!
# NFP types (`core/hle/service/nfp/nfp_types.h`)

A shallow embedding of the amiibo data types of the NFP service: the packed
16-bit `AmiiboDate`, the one-byte `Settings` bit field and the fixed binary
layouts of the tag images and of the host-facing records.

Conventions.
* A `u8`/`u16` object is a `Nat` below `2 ^ 8`/`2 ^ 16`; every `static_cast`
  is an explicit reduction.
* Arithmetic that C++ performs in `int` after integral promotion is done in
  `Int` when it can go negative, and the bit pattern of an `int` operand of
  `&`/`|` is its 32-bit two's-complement pattern as a `Nat`.
* A struct declaration is the list of its members in declaration order; sizes
  and offsets are computed from it by the usual layout rule (each member at
  the next multiple of its alignment, the struct rounded up to its own
  alignment, alignments capped by `#pragma pack`).
-/

namespace Service.NFP

/-! ## Integer helpers -/

/-- The conversion `static_cast<u16>` of an `int` value. -/
def toU16 (i : Int) : Nat := (i % 65536).toNat

/-- The conversion `static_cast<u8>` of an `int` value. -/
def toU8 (i : Int) : Nat := (i % 256).toNat

/-- The left shift `i << n` of an `int` (multiplication by `2 ^ n`; the
magnitudes that occur here stay far below `2 ^ 31`). -/
def shl (i : Int) (n : Nat) : Int := i * 2 ^ n

/-- The 32-bit pattern of `~x` for an `int` constant `0 ≤ x < 2 ^ 32`. -/
def compl32 (x : Nat) : Nat := 4294967295 - x

/-- Modelled from the spec: `Common::swap16` of `common/swap.h`, a header of
this repository that is not part of the sources at hand. The spec has the
multi-byte fields of the tag stored big-endian, so on the (little-endian) host
the two bytes of a `u16` are exchanged:
`static_cast<u16>((data >> 8) | (data << 8))`. The argument is converted to
`u16` as at the call. -/
def swap16 (data : Nat) : Nat :=
  (((data % 65536) >>> 8) ||| ((data % 65536) <<< 8)) % 65536

/-! ## `AmiiboDate` -/

/-- The struct `AmiiboDate`: one `u16 raw_date{}`. -/
structure AmiiboDate where
  /-- The stored (byte-swapped) packed date. -/
  raw_date : Nat := 0
deriving DecidableEq, Repr

namespace AmiiboDate

/-- The method `u16 GetValue() const`. -/
def GetValue (d : AmiiboDate) : Nat :=
  swap16 d.raw_date

/-- The method `u16 GetYear() const`. -/
def GetYear (d : AmiiboDate) : Nat :=
  toU16 ((((d.GetValue &&& 0xFE00) >>> 9 : Nat) : Int) + 2000)

/-- The method `u8 GetMonth() const`. -/
def GetMonth (d : AmiiboDate) : Nat :=
  toU8 ((((d.GetValue &&& 0x01E0) >>> 5 : Nat) : Int) - 1)

/-- The method `u8 GetDay() const`. -/
def GetDay (d : AmiiboDate) : Nat :=
  toU8 ((d.GetValue &&& 0x001F : Nat) : Int)

/-- The method `void SetYear(u16 year)`. -/
def SetYear (d : AmiiboDate) (year : Nat) : AmiiboDate :=
  let year_converted := toU16 (shl ((year : Int) - 2000) 9)
  { raw_date := swap16 ((d.GetValue &&& compl32 0xFE00) ||| year_converted) }

/-- The method `void SetMonth(u8 month)`. -/
def SetMonth (d : AmiiboDate) (month : Nat) : AmiiboDate :=
  let month_converted := toU16 (shl ((month : Int) + 1) 5)
  { raw_date := swap16 ((d.GetValue &&& compl32 0x01E0) ||| month_converted) }

/-- The method `void SetDay(u8 day)`. -/
def SetDay (d : AmiiboDate) (day : Nat) : AmiiboDate :=
  let day_converted := toU16 (day : Int)
  { raw_date := swap16 ((d.GetValue &&& compl32 0x001F) ||| day_converted) }

end AmiiboDate

/-- One call of a setter of `AmiiboDate`, with its argument. -/
inductive DateOp where
  | setYear (year : Nat)
  | setMonth (month : Nat)
  | setDay (day : Nat)
deriving DecidableEq, Repr

/-- Performs one setter call. -/
def DateOp.apply (op : DateOp) (d : AmiiboDate) : AmiiboDate :=
  match op with
  | .setYear year => d.SetYear year
  | .setMonth month => d.SetMonth month
  | .setDay day => d.SetDay day

/-- Performs a sequence of setter calls, first to last. -/
def applyOps (ops : List DateOp) (d : AmiiboDate) : AmiiboDate :=
  ops.foldl (fun acc op => op.apply acc) d

/-! ## The `Settings` bit field -/

/-- Modelled from the spec: the class template `BitField<position, bits, u8>`
of `common/bit_field.h`, a header of this repository that is not part of the
sources at hand. The spec gives the flags of the settings byte by bit number
("bit 4", "bit 5"): a field of `bits` bits starting at bit `position` of the
one-byte storage it shares with `raw`. -/
structure BitField where
  /-- The index of the lowest bit of the field. -/
  position : Nat
  /-- The width of the field. -/
  bits : Nat
deriving DecidableEq, Repr

namespace BitField

/-- The mask of the field inside the storage byte. -/
def mask (f : BitField) : Nat := ((2 ^ f.bits - 1) <<< f.position) % 256

/-- Reading the field: the masked storage shifted down. -/
def Value (f : BitField) (storage : Nat) : Nat := (storage &&& f.mask) >>> f.position

/-- Assigning `value` to the field: the bits of the field are replaced by
the low bits of `value`, the rest of the storage is kept. -/
def Assign (f : BitField) (storage value : Nat) : Nat :=
  ((storage &&& (255 - f.mask)) ||| ((value <<< f.position) &&& f.mask)) % 256

end BitField

/-- The struct `Settings`: a union of `u8 raw{}` with its two bit fields. -/
structure Settings where
  /-- The whole byte. -/
  raw : Nat := 0
deriving DecidableEq, Repr

namespace Settings

/-- The member `BitField<4, 1, u8> amiibo_initialized`. -/
def amiibo_initialized : BitField := { position := 4, bits := 1 }

/-- The member `BitField<5, 1, u8> appdata_initialized`. -/
def appdata_initialized : BitField := { position := 5, bits := 1 }

end Settings

/-! ## Layout of the records -/

/-- The constant `amiibo_name_length`. -/
def amiibo_name_length : Nat := 0xA

/-- What the layout of a struct uses of a member type: `sizeof` and `alignof`. -/
structure CType where
  /-- The size in bytes. -/
  size : Nat
  /-- The alignment in bytes. -/
  align : Nat
deriving DecidableEq, Repr

/-- Modelled from the spec: the fixed-width alias `u8` of
`common/common_types.h` (not part of the sources at hand), one byte. -/
def u8 : CType := ⟨1, 1⟩

/-- Modelled from the spec: the fixed-width alias `u16` of
`common/common_types.h`, two bytes. -/
def u16 : CType := ⟨2, 2⟩

/-- Modelled from the spec: the fixed-width alias `u32` of
`common/common_types.h`, four bytes. -/
def u32 : CType := ⟨4, 4⟩

/-- Modelled from the spec: the fixed-width alias `s32` of
`common/common_types.h`, four bytes. -/
def s32 : CType := ⟨4, 4⟩

/-- The built-in type `char`. -/
def char : CType := ⟨1, 1⟩

/-- Modelled from the spec: `u16_be` of `common/swap.h` (not part of the
sources at hand), a big-endian 16-bit integer field: a wrapper of one `u16`. -/
def u16_be : CType := ⟨2, 2⟩

/-- Modelled from the spec: `u32_be` of `common/swap.h`, a big-endian 32-bit
integer field: a wrapper of one `u32`. -/
def u32_be : CType := ⟨4, 4⟩

/-- Modelled from the spec: `u64_be` of `common/swap.h`, a big-endian 64-bit
integer field: a wrapper of one `u64`. -/
def u64_be : CType := ⟨8, 8⟩

/-- Modelled from the spec: `Service::Mii::Ver3StoreData` of
`core/hle/service/mii/types.h` (not part of the sources at hand), the opaque
avatar blob of 0x60 bytes; its alignment is left open. -/
def Ver3StoreData (align : Nat) : CType := ⟨0x60, align⟩

/-- Modelled from the spec: `Service::Mii::CharInfo` of
`core/hle/service/mii/types.h` (not part of the sources at hand), taken as
0x58 bytes; its alignment is left open. -/
def CharInfo (align : Nat) : CType := ⟨0x58, align⟩

/-- The type `std::array<T, n>`. -/
def array (t : CType) (n : Nat) : CType := ⟨t.size * n, t.align⟩

/-- The names of the data members declared in `nfp_types.h`. The anonymous
members made by `INSERT_PADDING_BYTES` are all called `padding`. -/
inductive Field where
  | raw_date | raw | amiibo_initialized | appdata_initialized
  | settings | country_code_id | crc_counter | init_date | write_date | crc | amiibo_name
  | character_id | character_variant | amiibo_type | model_number | series
  | constant_value | padding
  | PWD | PACK | RFUI
  | write_counter | hmac_tag | model_info | keygen_salt | hmac_data | owner_mii
  | title_id | applicaton_write_counter | application_area_id | unknown | hash
  | application_area
  | uuid2 | uuid | static_lock | compability_container | user_memory
  | dynamic_lock | CFG0 | CFG1 | password
  | uuid_length | protocol | tag_type
  | year | month | day
  | last_write_date | version | application_area_size
  | mii_char_info | creation_date | font_region
deriving DecidableEq, Repr

/-- A data member of a struct: its name and its type. -/
structure Member where
  /-- The member name. -/
  name : Field
  /-- The member type. -/
  type : CType
deriving DecidableEq, Repr

/-- Modelled from the spec: the macro `INSERT_PADDING_BYTES(n)` of
`common/common_funcs.h` (not part of the sources at hand), which declares an
anonymous member of `n` bytes. -/
def INSERT_PADDING_BYTES (n : Nat) : Member := ⟨.padding, array u8 n⟩

/-- A member placed in its struct: name, offset of its first byte, size. -/
structure Placed where
  /-- The member name. -/
  name : Field
  /-- The offset of the first byte. -/
  offset : Nat
  /-- The size in bytes. -/
  size : Nat
deriving DecidableEq, Repr

/-- The least multiple of `a` that is at least `offset`. -/
def alignUp (offset a : Nat) : Nat := (offset + (a - 1)) / a * a

/-- The alignment of a member: that of its type, capped by `#pragma pack(n)`
when one is in force (`some n`). -/
def memberAlign (pack : Option Nat) (t : CType) : Nat :=
  match pack with
  | none => t.align
  | some n => min n t.align

/-- Places the members one after the other from `offset` on, each at the next
multiple of its alignment. -/
def place (pack : Option Nat) : Nat → List Member → List Placed
  | _, [] => []
  | offset, m :: ms =>
    let o := alignUp offset (memberAlign pack m.type)
    ⟨m.name, o, m.type.size⟩ :: place pack (o + m.type.size) ms

/-- The offset just past the last placed member. -/
def endOffset : List Placed → Nat
  | [] => 0
  | [p] => p.offset + p.size
  | _ :: ps => endOffset ps

/-- The alignment of a struct: the largest alignment of a member. -/
def structAlign (pack : Option Nat) (ms : List Member) : Nat :=
  ms.foldl (fun a m => max a (memberAlign pack m.type)) 1

/-- The size of a struct: the end of its last member, rounded up to the
alignment of the struct. -/
def structSize (pack : Option Nat) (ms : List Member) : Nat :=
  alignUp (endOffset (place pack 0 ms)) (structAlign pack ms)

/-- The type made by a struct declaration. -/
def structType (pack : Option Nat) (ms : List Member) : CType :=
  ⟨structSize pack ms, structAlign pack ms⟩

/-- The type made by a union declaration: all members at offset 0. -/
def unionType (ms : List Member) : CType :=
  ⟨alignUp (ms.foldl (fun a m => max a m.type.size) 0) (structAlign none ms),
    structAlign none ms⟩

/-- The sum of the declared member sizes of a struct. -/
def sumSizes (ms : List Member) : Nat :=
  (ms.map (fun m => m.type.size)).sum

/-- The alias `using TagUuid = std::array<u8, 10>`. -/
def TagUuid : CType := array u8 10

/-- The alias `using HashData = std::array<u8, 0x20>`. -/
def HashData : CType := array u8 0x20

/-- The alias `using ApplicationArea = std::array<u8, 0xD8>`. -/
def ApplicationArea : CType := array u8 0xD8

/-- The alias `using AmiiboName = std::array<char, (amiibo_name_length * 4) + 1>`. -/
def AmiiboName : CType := array char (amiibo_name_length * 4 + 1)

/-- The enum `AmiiboType : u8`. -/
def AmiiboType : CType := u8

/-- The enum `AmiiboSeries : u8`. -/
def AmiiboSeries : CType := u8

/-- The members of `struct AmiiboDate`. -/
def AmiiboDate.members : List Member := [⟨.raw_date, u16⟩]

/-- The layout type of `struct AmiiboDate`. -/
def AmiiboDate.ctype : CType := structType none AmiiboDate.members

/-- The members of the union in `struct Settings`; a `BitField<_, _, u8>`
is stored in one `u8`. -/
def Settings.members : List Member :=
  [⟨.raw, u8⟩, ⟨.amiibo_initialized, u8⟩, ⟨.appdata_initialized, u8⟩]

/-- The layout type of `struct Settings`. -/
def Settings.ctype : CType := unionType Settings.members

/-- The members of `struct AmiiboSettings`. -/
def AmiiboSettings.members : List Member :=
  [⟨.settings, Settings.ctype⟩,
   ⟨.country_code_id, u8⟩,
   ⟨.crc_counter, u16_be⟩,
   ⟨.init_date, AmiiboDate.ctype⟩,
   ⟨.write_date, AmiiboDate.ctype⟩,
   ⟨.crc, u32_be⟩,
   ⟨.amiibo_name, array u16_be amiibo_name_length⟩]

/-- The layout type of `struct AmiiboSettings`. -/
def AmiiboSettings.ctype : CType := structType none AmiiboSettings.members

/-- The members of `struct AmiiboModelInfo`. -/
def AmiiboModelInfo.members : List Member :=
  [⟨.character_id, u16⟩,
   ⟨.character_variant, u8⟩,
   ⟨.amiibo_type, AmiiboType⟩,
   ⟨.model_number, u16⟩,
   ⟨.series, AmiiboSeries⟩,
   ⟨.constant_value, u8⟩,
   INSERT_PADDING_BYTES 0x4]

/-- The layout type of `struct AmiiboModelInfo`. -/
def AmiiboModelInfo.ctype : CType := structType none AmiiboModelInfo.members

/-- The members of `struct NTAG215Password`. -/
def NTAG215Password.members : List Member :=
  [⟨.PWD, u32⟩, ⟨.PACK, u16⟩, ⟨.RFUI, u16⟩]

/-- The layout type of `struct NTAG215Password`. -/
def NTAG215Password.ctype : CType := structType none NTAG215Password.members

/-- The members of `struct EncryptedAmiiboFile` (declared under
`#pragma pack(1)`); `mii` is the alignment of `Ver3StoreData`. -/
def EncryptedAmiiboFile.members (mii : Nat) : List Member :=
  [⟨.constant_value, u8⟩,
   ⟨.write_counter, u16_be⟩,
   INSERT_PADDING_BYTES 0x1,
   ⟨.settings, AmiiboSettings.ctype⟩,
   ⟨.hmac_tag, HashData⟩,
   ⟨.model_info, AmiiboModelInfo.ctype⟩,
   ⟨.keygen_salt, HashData⟩,
   ⟨.hmac_data, HashData⟩,
   ⟨.owner_mii, Ver3StoreData mii⟩,
   ⟨.title_id, u64_be⟩,
   ⟨.applicaton_write_counter, u16_be⟩,
   ⟨.application_area_id, u32_be⟩,
   ⟨.unknown, array u8 0x2⟩,
   ⟨.hash, HashData⟩,
   ⟨.application_area, ApplicationArea⟩]

/-- The layout type of `struct EncryptedAmiiboFile`. -/
def EncryptedAmiiboFile.ctype (mii : Nat) : CType :=
  structType (some 1) (EncryptedAmiiboFile.members mii)

/-- The members of `struct NTAG215File` (declared under `#pragma pack(1)`). -/
def NTAG215File.members (mii : Nat) : List Member :=
  [⟨.uuid2, array u8 0x2⟩,
   ⟨.static_lock, u16⟩,
   ⟨.compability_container, u32⟩,
   ⟨.hmac_data, HashData⟩,
   ⟨.constant_value, u8⟩,
   ⟨.write_counter, u16_be⟩,
   INSERT_PADDING_BYTES 0x1,
   ⟨.settings, AmiiboSettings.ctype⟩,
   ⟨.owner_mii, Ver3StoreData mii⟩,
   ⟨.title_id, u64_be⟩,
   ⟨.applicaton_write_counter, u16_be⟩,
   ⟨.application_area_id, u32_be⟩,
   ⟨.unknown, array u8 0x2⟩,
   ⟨.hash, HashData⟩,
   ⟨.application_area, ApplicationArea⟩,
   ⟨.hmac_tag, HashData⟩,
   ⟨.uuid, array u8 0x8⟩,
   ⟨.model_info, AmiiboModelInfo.ctype⟩,
   ⟨.keygen_salt, HashData⟩,
   ⟨.dynamic_lock, u32⟩,
   ⟨.CFG0, u32⟩,
   ⟨.CFG1, u32⟩,
   ⟨.password, NTAG215Password.ctype⟩]

/-- The layout type of `struct NTAG215File`. -/
def NTAG215File.ctype (mii : Nat) : CType :=
  structType (some 1) (NTAG215File.members mii)

/-- The members of `struct EncryptedNTAG215File` (declared after
`#pragma pack()`, so with natural alignment). -/
def EncryptedNTAG215File.members (mii : Nat) : List Member :=
  [⟨.uuid, TagUuid⟩,
   ⟨.static_lock, u16⟩,
   ⟨.compability_container, u32⟩,
   ⟨.user_memory, EncryptedAmiiboFile.ctype mii⟩,
   ⟨.dynamic_lock, u32⟩,
   ⟨.CFG0, u32⟩,
   ⟨.CFG1, u32⟩,
   ⟨.password, NTAG215Password.ctype⟩]

/-- The layout type of `struct EncryptedNTAG215File`. -/
def EncryptedNTAG215File.ctype (mii : Nat) : CType :=
  structType none (EncryptedNTAG215File.members mii)

/-- The members of `struct TagInfo`. -/
def TagInfo.members : List Member :=
  [⟨.uuid, TagUuid⟩,
   ⟨.uuid_length, u8⟩,
   INSERT_PADDING_BYTES 0x15,
   ⟨.protocol, s32⟩,
   ⟨.tag_type, u32⟩,
   INSERT_PADDING_BYTES 0x30]

/-- The layout type of `struct TagInfo`. -/
def TagInfo.ctype : CType := structType none TagInfo.members

/-- The members of `struct WriteDate`. -/
def WriteDate.members : List Member :=
  [⟨.year, u16⟩, ⟨.month, u8⟩, ⟨.day, u8⟩]

/-- The layout type of `struct WriteDate`. -/
def WriteDate.ctype : CType := structType none WriteDate.members

/-- The members of `struct CommonInfo`. -/
def CommonInfo.members : List Member :=
  [⟨.last_write_date, WriteDate.ctype⟩,
   ⟨.write_counter, u16⟩,
   ⟨.version, u8⟩,
   INSERT_PADDING_BYTES 0x1,
   ⟨.application_area_size, u32⟩,
   INSERT_PADDING_BYTES 0x34]

/-- The layout type of `struct CommonInfo`. -/
def CommonInfo.ctype : CType := structType none CommonInfo.members

/-- The members of `struct ModelInfo`. -/
def ModelInfo.members : List Member :=
  [⟨.character_id, u16⟩,
   ⟨.character_variant, u8⟩,
   ⟨.amiibo_type, AmiiboType⟩,
   ⟨.model_number, u16⟩,
   ⟨.series, AmiiboSeries⟩,
   INSERT_PADDING_BYTES 0x39]

/-- The layout type of `struct ModelInfo`. -/
def ModelInfo.ctype : CType := structType none ModelInfo.members

/-- The members of `struct RegisterInfo`; `mii` is the alignment of
`CharInfo`. -/
def RegisterInfo.members (mii : Nat) : List Member :=
  [⟨.mii_char_info, CharInfo mii⟩,
   ⟨.creation_date, WriteDate.ctype⟩,
   ⟨.amiibo_name, AmiiboName⟩,
   ⟨.font_region, u8⟩,
   INSERT_PADDING_BYTES 0x7A]

/-- The layout type of `struct RegisterInfo`. -/
def RegisterInfo.ctype (mii : Nat) : CType :=
  structType none (RegisterInfo.members mii)

/-- Replaces the placed member `f` by the placed members of its own struct,
their offsets counted from the start of the outer struct. -/
def flatten (outer : List Placed) (f : Field) (inner : List Placed) : List Placed :=
  outer.flatMap fun p =>
    if p.name = f then inner.map fun q => ⟨q.name, p.offset + q.offset, q.size⟩ else [p]

/-- The bytes of `EncryptedNTAG215File`, member by member, with the members of
`user_memory` in place of `user_memory`. -/
def EncryptedNTAG215File.flat (mii : Nat) : List Placed :=
  flatten (place none 0 (EncryptedNTAG215File.members mii)) .user_memory
    (place (some 1) 0 (EncryptedAmiiboFile.members mii))

/-- The first and last byte of each placed member. -/
def byteRanges (ps : List Placed) : List (Field × Nat × Nat) :=
  ps.map fun p => (p.name, p.offset, p.offset + p.size - 1)

/-- Each placed member starts where the one before it ends, the first one at
`start`. -/
def contiguousFrom : Nat → List Placed → Bool
  | _, [] => true
  | start, p :: ps => p.offset == start && contiguousFrom (p.offset + p.size) ps

/-- The (field, width) entries of a layout. -/
def entries (ps : List Placed) : List (Field × Nat) :=
  ps.map fun p => (p.name, p.size)

/-- Counts the 10-byte `uuid` as the 2-byte `uuid2` followed by the 8-byte
`uuid`. -/
def splitUuid (es : List (Field × Nat)) : List (Field × Nat) :=
  es.flatMap fun e => if e = (Field.uuid, 10) then [(Field.uuid2, 2), (Field.uuid, 8)] else [e]

end Service.NFP

namespace Service.NFP

/-! ## Bit-level lemmas -/

theorem and_field (v lo w : Nat) :
    v &&& ((2 ^ w - 1) * 2 ^ lo) = (v / 2 ^ lo % 2 ^ w) * 2 ^ lo := by
  apply Nat.eq_of_testBit_eq
  intro i
  rw [Nat.mul_comm (2 ^ w - 1), Nat.mul_comm (v / 2 ^ lo % 2 ^ w)]
  simp only [Nat.testBit_and, Nat.testBit_mul_pow_two, Nat.testBit_mod_two_pow,
    Nat.testBit_two_pow_sub_one, ← Nat.shiftRight_eq_div_pow, Nat.testBit_shiftRight]
  by_cases h : lo ≤ i
  · have e : lo + (i - lo) = i := by omega
    simp [h, e, Bool.and_comm]
  · simp [h]

theorem or_disjoint (a b k : Nat) (h : b < 2 ^ k) : a * 2 ^ k ||| b = a * 2 ^ k + b := by
  rw [Nat.mul_comm]
  exact (Nat.mul_add_lt_is_or h a).symm

theorem swap16_eq (x : Nat) : swap16 x = (x % 256) * 256 + x / 256 % 256 := by
  have h1 : (x % 256) * 256 + x / 256 % 256 = (x % 256) * 2 ^ 8 ||| x / 256 % 256 := by
    rw [or_disjoint _ _ _ (by omega)]
    norm_num
  rw [h1]
  unfold swap16
  apply Nat.eq_of_testBit_eq
  intro i
  have e1 : (65536 : Nat) = 2 ^ 16 := by norm_num
  have e2 : (256 : Nat) = 2 ^ 8 := by norm_num
  rw [e1, e2, Nat.mul_comm (x % 2 ^ 8)]
  simp only [Nat.testBit_mod_two_pow, Nat.testBit_or, Nat.testBit_shiftRight,
    Nat.testBit_shiftLeft, Nat.testBit_mul_pow_two, ← Nat.shiftRight_eq_div_pow]
  by_cases h8 : 8 ≤ i
  · by_cases h16 : i < 16
    · have a1 : ¬ (8 + i < 16) := by omega
      have a2 : i - 8 < 16 := by omega
      have a3 : i - 8 < 8 := by omega
      have a4 : ¬ (i < 8) := by omega
      simp [h8, h16, a1, a2, a3, a4]
    · have a3 : ¬ (i - 8 < 8) := by omega
      have a4 : ¬ (i < 8) := by omega
      simp [h8, h16, a3, a4]
  · have a1 : 8 + i < 16 := by omega
    have a2 : i < 16 := by omega
    have a4 : i < 8 := by omega
    simp [h8, a1, a2, a4]

theorem swap16_lt (x : Nat) : swap16 x < 65536 := by
  rw [swap16_eq]; omega

theorem swap16_swap16 (x : Nat) : swap16 (swap16 x) = x % 65536 := by
  rw [swap16_eq, swap16_eq]
  have h1 : (x % 256 * 256 + x / 256 % 256) % 256 = x / 256 % 256 := by omega
  have h2 : (x % 256 * 256 + x / 256 % 256) / 256 = x % 256 := by omega
  rw [h1, h2]
  omega

/-- The masks of the getters, as arithmetic. -/
theorem and_FE00 (v : Nat) : v &&& 0xFE00 = (v / 512 % 128) * 512 :=
  and_field v 9 7

theorem and_01E0 (v : Nat) : v &&& 0x01E0 = (v / 32 % 16) * 32 :=
  and_field v 5 4

theorem and_001F (v : Nat) : v &&& 0x001F = v % 32 :=
  Nat.and_pow_two_sub_one_eq_mod v 5

/-- The complemented masks of the setters, applied to a 16-bit value. -/
theorem and_compl_FE00 (v : Nat) (h : v < 65536) : v &&& compl32 0xFE00 = v % 512 := by
  have e : compl32 0xFE00 = ((2 ^ 16 - 1) * 2 ^ 16) ||| (2 ^ 9 - 1) := by decide
  rw [e, Nat.and_or_distrib_left, and_field, Nat.and_pow_two_sub_one_eq_mod]
  have z : v / 2 ^ 16 = 0 := Nat.div_eq_of_lt h
  rw [z]
  simp

theorem and_compl_01E0 (v : Nat) (h : v < 65536) :
    v &&& compl32 0x01E0 = v / 512 * 512 + v % 32 := by
  have e : compl32 0x01E0 = ((2 ^ 23 - 1) * 2 ^ 9) ||| (2 ^ 5 - 1) := by decide
  rw [e, Nat.and_or_distrib_left, and_field, Nat.and_pow_two_sub_one_eq_mod,
    or_disjoint _ _ _ (by omega)]
  omega

theorem and_compl_001F (v : Nat) (h : v < 65536) : v &&& compl32 0x001F = v / 32 * 32 := by
  have e : compl32 0x001F = (2 ^ 27 - 1) * 2 ^ 5 := by decide
  rw [e, and_field]
  omega

/-! ## The packed value after each setter -/

namespace AmiiboDate

theorem GetValue_lt (d : AmiiboDate) : d.GetValue < 65536 :=
  swap16_lt _

theorem GetValue_mk (p : Nat) : (AmiiboDate.mk (swap16 p)).GetValue = p % 65536 :=
  swap16_swap16 p

theorem GetYear_eq (d : AmiiboDate) : d.GetYear = d.GetValue / 512 + 2000 := by
  have h := d.GetValue_lt
  unfold GetYear toU16
  rw [and_FE00, Nat.shiftRight_eq_div_pow]
  omega

theorem GetMonth_eq (d : AmiiboDate) : d.GetMonth = (d.GetValue / 32 % 16 + 255) % 256 := by
  unfold GetMonth toU8
  rw [and_01E0, Nat.shiftRight_eq_div_pow]
  omega

theorem GetDay_eq (d : AmiiboDate) : d.GetDay = d.GetValue % 32 := by
  unfold GetDay toU8
  rw [and_001F]
  omega

theorem year_converted_eq (year : Nat) :
    toU16 (shl ((year : Int) - 2000) 9) = (((year : Int) - 2000) % 128).toNat * 2 ^ 9 := by
  unfold toU16 shl
  omega

theorem month_converted_eq (month : Nat) (h : month < 256) :
    toU16 (shl ((month : Int) + 1) 5) = (month + 1) * 2 ^ 5 := by
  unfold toU16 shl
  omega

theorem day_converted_eq (day : Nat) (h : day < 256) : toU16 (day : Int) = day := by
  unfold toU16
  omega

theorem GetValue_SetYear (d : AmiiboDate) (year : Nat) :
    (d.SetYear year).GetValue
      = d.GetValue % 512 + (((year : Int) - 2000) % 128).toNat * 512 := by
  have h := d.GetValue_lt
  show swap16 (swap16 _) = _
  rw [swap16_swap16, and_compl_FE00 _ h, year_converted_eq, Nat.lor_comm,
    or_disjoint _ _ _ (by omega)]
  omega

theorem GetValue_SetMonth (d : AmiiboDate) (month : Nat) (hm : month ≤ 14) :
    (d.SetMonth month).GetValue
      = d.GetValue / 512 * 512 + (month + 1) * 32 + d.GetValue % 32 := by
  have h := d.GetValue_lt
  show swap16 (swap16 _) = _
  have e : d.GetValue / 512 * 512 + d.GetValue % 32
      = d.GetValue / 512 * 2 ^ 9 ||| d.GetValue % 32 := by
    rw [or_disjoint _ _ _ (by omega)]
    norm_num
  rw [swap16_swap16, and_compl_01E0 _ h, month_converted_eq _ (by omega), e,
    Nat.lor_assoc, Nat.lor_comm (d.GetValue % 32), or_disjoint _ _ 5 (by omega),
    or_disjoint _ _ 9 (by omega)]
  omega

theorem GetValue_SetDay (d : AmiiboDate) (day : Nat) (hd : day ≤ 31) :
    (d.SetDay day).GetValue = d.GetValue / 32 * 32 + day := by
  have h := d.GetValue_lt
  show swap16 (swap16 _) = _
  have e : d.GetValue / 32 * 32 = d.GetValue / 32 * 2 ^ 5 := by norm_num
  rw [swap16_swap16, and_compl_001F _ h, day_converted_eq _ (by omega), e,
    or_disjoint _ _ 5 (by omega)]
  omega

theorem and_FE1F (v : Nat) (h : v < 65536) : v &&& 0xFE1F = v &&& compl32 0x01E0 := by
  have e : (0xFE1F : Nat) = ((2 ^ 7 - 1) * 2 ^ 9) ||| (2 ^ 5 - 1) := by decide
  rw [and_compl_01E0 v h, e, Nat.and_or_distrib_left, and_field,
    Nat.and_pow_two_sub_one_eq_mod, or_disjoint _ _ _ (by omega)]
  omega

theorem and_FFE0 (v : Nat) (h : v < 65536) : v &&& 0xFFE0 = v &&& compl32 0x001F := by
  have e : (0xFFE0 : Nat) = (2 ^ 11 - 1) * 2 ^ 5 := by decide
  rw [and_compl_001F v h, e, and_field]
  omega

theorem GetValue_SetMonth_bits (d : AmiiboDate) (month : Nat) (hm : month < 256) :
    (d.SetMonth month).GetValue = (d.GetValue &&& 0xFE1F) ||| ((month + 1) <<< 5) := by
  have h := d.GetValue_lt
  show swap16 (swap16 _) = _
  rw [swap16_swap16, ← and_FE1F _ h, month_converted_eq _ hm, ← Nat.shiftLeft_eq]
  apply Nat.mod_eq_of_lt
  apply Nat.or_lt_two_pow (n := 16)
  · exact Nat.lt_of_le_of_lt Nat.and_le_left h
  · rw [Nat.shiftLeft_eq]
    omega

theorem GetValue_SetDay_bits (d : AmiiboDate) (day : Nat) (hd : day < 256) :
    (d.SetDay day).GetValue = (d.GetValue &&& 0xFFE0) ||| day := by
  have h := d.GetValue_lt
  show swap16 (swap16 _) = _
  rw [swap16_swap16, ← and_FFE0 _ h, day_converted_eq _ hd]
  apply Nat.mod_eq_of_lt
  apply Nat.or_lt_two_pow (n := 16)
  · exact Nat.lt_of_le_of_lt Nat.and_le_left h
  · omega

end AmiiboDate

/-! ## Sequences of setter calls -/

theorem permutations_three {α : Type} (a b c : α) :
    List.permutations [a, b, c]
      = [[a, b, c], [b, a, c], [c, b, a], [b, c, a], [c, a, b], [a, c, b]] := by
  simp [List.permutations, List.permutationsAux_cons, List.permutationsAux2,
    List.permutationsAux_nil]

theorem perm_three {α : Type} {a b c : α} {ops : List α} (hp : ops.Perm [a, b, c]) :
    ops = [a, b, c] ∨ ops = [b, a, c] ∨ ops = [c, b, a] ∨ ops = [b, c, a]
      ∨ ops = [c, a, b] ∨ ops = [a, c, b] := by
  have h := List.mem_permutations.mpr hp
  rw [permutations_three] at h
  simpa using h

theorem DateOp.apply_raw_date_lt (op : DateOp) (d : AmiiboDate) :
    (op.apply d).raw_date < 65536 := by
  cases op <;> exact swap16_lt _

theorem applyOps_raw_date_lt (ops : List DateOp) (d : AmiiboDate) (h : d.raw_date < 65536) :
    (applyOps ops d).raw_date < 65536 := by
  induction ops generalizing d with
  | nil => exact h
  | cons op ops ih => exact ih (op.apply d) (op.apply_raw_date_lt d)

theorem swap16_GetValue (d : AmiiboDate) (h : d.raw_date < 65536) :
    swap16 d.GetValue = d.raw_date := by
  unfold AmiiboDate.GetValue
  rw [swap16_swap16]
  omega

/-! ## The date claims -/

/-- C1. Date round trip: from any stored `raw_date`, calling `SetYear(year)`,
`SetMonth(month)` and `SetDay(day)` once each, in any order, with `year` in
[2000, 2127], `month` in [1, 12] and `day` in [1, 31], makes `GetYear()`,
`GetMonth()` and `GetDay()` return `year`, `month` and `day`. -/
theorem date_round_trip (d : AmiiboDate) (year month day : Nat)
    (hy : 2000 ≤ year ∧ year ≤ 2127) (hm : 1 ≤ month ∧ month ≤ 12)
    (hd : 1 ≤ day ∧ day ≤ 31) (ops : List DateOp)
    (hp : ops.Perm [DateOp.setYear year, DateOp.setMonth month, DateOp.setDay day]) :
    (applyOps ops d).GetYear = year ∧ (applyOps ops d).GetMonth = month
      ∧ (applyOps ops d).GetDay = day := by
  have hv := d.GetValue_lt
  have hm14 : month ≤ 14 := by omega
  have hd31 : day ≤ 31 := hd.2
  rcases perm_three hp with h | h | h | h | h | h <;> subst h <;>
    simp only [applyOps, List.foldl, DateOp.apply, AmiiboDate.GetYear_eq,
      AmiiboDate.GetMonth_eq, AmiiboDate.GetDay_eq, AmiiboDate.GetValue_SetYear,
      AmiiboDate.GetValue_SetMonth _ _ hm14, AmiiboDate.GetValue_SetDay _ _ hd31] <;>
    omega

/-- Witness of C1: 15 June 2024 written day first, then year, then month, over
the stored value 0xABCD. -/
theorem date_round_trip_witness :
    (2000 ≤ 2024 ∧ 2024 ≤ 2127) ∧ (1 ≤ 6 ∧ 6 ≤ 12) ∧ (1 ≤ 15 ∧ 15 ≤ 31)
      ∧ (applyOps [DateOp.setDay 15, DateOp.setYear 2024, DateOp.setMonth 6]
          ⟨0xABCD⟩).GetYear = 2024
      ∧ (applyOps [DateOp.setDay 15, DateOp.setYear 2024, DateOp.setMonth 6]
          ⟨0xABCD⟩).GetMonth = 6
      ∧ (applyOps [DateOp.setDay 15, DateOp.setYear 2024, DateOp.setMonth 6]
          ⟨0xABCD⟩).GetDay = 15 :=
  ⟨by decide, by decide, by decide,
    date_round_trip ⟨0xABCD⟩ 2024 6 15 (by decide) (by decide) (by decide)
      [DateOp.setDay 15, DateOp.setYear 2024, DateOp.setMonth 6] (by decide)⟩

/-- C2, as the code has it. `SetMonth` and `SetDay` check no range and reject
nothing: for every 8-bit `month` (so also outside [1, 12]) the packed value
after `SetMonth(month)` is `(v & 0xFE1F) | ((month + 1) << 5)`, and for every
8-bit `day` (so also outside [1, 31]) the packed value after `SetDay(day)` is
`(v & 0xFFE0) | day`, where `v` is the packed value before the call. -/
theorem set_month_day_unchecked (d : AmiiboDate) (month day : Nat)
    (hm : month < 256) (hd : day < 256) :
    (d.SetMonth month).GetValue = (d.GetValue &&& 0xFE1F) ||| ((month + 1) <<< 5)
      ∧ (d.SetDay day).GetValue = (d.GetValue &&& 0xFFE0) ||| day :=
  ⟨AmiiboDate.GetValue_SetMonth_bits d month hm, AmiiboDate.GetValue_SetDay_bits d day hd⟩

/-- Witness of the amended C2: month 13 and day 0 written over the stored value
0x3412 (packed 0x1234). -/
theorem set_month_day_unchecked_witness :
    13 < 256 ∧ 0 < 256
      ∧ ((AmiiboDate.mk 0x3412).SetMonth 13).GetValue
          = ((AmiiboDate.mk 0x3412).GetValue &&& 0xFE1F) ||| ((13 + 1) <<< 5)
      ∧ ((AmiiboDate.mk 0x3412).SetDay 0).GetValue
          = ((AmiiboDate.mk 0x3412).GetValue &&& 0xFFE0) ||| 0 :=
  ⟨by decide, by decide, set_month_day_unchecked ⟨0x3412⟩ 13 0 (by decide) (by decide)⟩

/-- Counterexample to C2 as stated: on the default date, `SetMonth(13)` and
`SetDay(32)` both change the stored date although 13 is no month and 32 is no
day; `SetMonth(13)` writes 14 into the month field and `SetDay(32)` sets bit 5,
which belongs to the month field. -/
theorem set_month_day_not_rejected :
    (AmiiboDate.mk 0).SetMonth 13 ≠ AmiiboDate.mk 0
      ∧ ((AmiiboDate.mk 0).SetMonth 13).GetValue = 0x01C0
      ∧ (AmiiboDate.mk 0).SetDay 32 ≠ AmiiboDate.mk 0
      ∧ ((AmiiboDate.mk 0).SetDay 32).GetValue = 0x0020 := by
  decide

/-- C3, as the code has it. The month is stored with an offset of one: for every
calendar month `m` in [1, 12], after `SetMonth(m)` the 4-bit month field of the
packed value (bits 8..5 of `GetValue()`, the field `GetMonth()` reads through
the mask 0x01E0) holds `m + 1`. -/
theorem month_field_after_SetMonth (d : AmiiboDate) (m : Nat) (hm : 1 ≤ m ∧ m ≤ 12) :
    ((d.SetMonth m).GetValue >>> 5) % 16 = m + 1
      ∧ ((d.SetMonth m).GetValue &&& 0x01E0) >>> 5 = m + 1 := by
  have hv := d.GetValue_lt
  rw [and_01E0, Nat.shiftRight_eq_div_pow, Nat.shiftRight_eq_div_pow,
    AmiiboDate.GetValue_SetMonth d m (by omega)]
  omega

/-- Witness of the amended C3: December written over the stored value 0xFFFF. -/
theorem month_field_after_SetMonth_witness :
    (1 ≤ 12 ∧ 12 ≤ 12)
      ∧ (((AmiiboDate.mk 0xFFFF).SetMonth 12).GetValue >>> 5) % 16 = 12 + 1
      ∧ (((AmiiboDate.mk 0xFFFF).SetMonth 12).GetValue &&& 0x01E0) >>> 5 = 12 + 1 :=
  ⟨by decide, month_field_after_SetMonth ⟨0xFFFF⟩ 12 (by decide)⟩

/-- Counterexample to C3 as stated: after `SetMonth(1)` on the default date the
month field holds 2, not 1 - 1 = 0. -/
theorem month_field_not_zero_based :
    (((AmiiboDate.mk 0).SetMonth 1).GetValue >>> 5) % 16 = 2
      ∧ (((AmiiboDate.mk 0).SetMonth 1).GetValue >>> 5) % 16 ≠ 1 - 1 := by
  decide

/-- C4. Year and day bit layout: for `year` in [2000, 2127] and `day` in
[1, 31], after `SetYear(year)` and `SetDay(day)` (in either order) the 16-bit
packed value `GetValue()` holds `year - 2000` in bits 15..9 and `day` in bits
4..0, and the month field, bits 8..5, is what it was. The three fields read
through the masks 0xFE00, 0x01E0 and 0x001F are 7, 4 and 5 bits wide and every
packed value, a number of 7 + 4 + 5 = 16 bits, is exactly the three of them
side by side: no bit shared and none left over. The accessors use the fields
that way: `GetYear() - 2000`, `GetMonth() + 1` (as a byte) and `GetDay()` are
the three masked fields, so the packed value is
`(GetYear() - 2000) * 2^9 + (GetMonth() + 1) * 2^5 + GetDay()`; `SetYear(year)`
leaves bits 8..0 alone, `SetDay(day)` leaves bits 15..5 alone, and
`SetMonth(month)` for `month` in [1, 12] writes bits 8..5 only, leaving bits
15..9 and 4..0 (hence `GetYear()` and `GetDay()`) alone. -/
theorem year_day_bit_layout (d : AmiiboDate) (year day : Nat)
    (hy : 2000 ≤ year ∧ year ≤ 2127) (hd : 1 ≤ day ∧ day ≤ 31) :
    (((d.SetYear year).SetDay day).GetValue < 2 ^ 16
        ∧ ((d.SetYear year).SetDay day).GetValue >>> 9 = year - 2000
        ∧ ((d.SetYear year).SetDay day).GetValue % 2 ^ 5 = day)
      ∧ (((d.SetDay day).SetYear year).GetValue < 2 ^ 16
        ∧ ((d.SetDay day).SetYear year).GetValue >>> 9 = year - 2000
        ∧ ((d.SetDay day).SetYear year).GetValue % 2 ^ 5 = day)
      ∧ (∀ e : AmiiboDate,
          e.GetValue < 2 ^ (7 + 4 + 5)
            ∧ (e.GetValue &&& 0xFE00) >>> 9 < 2 ^ 7
            ∧ (e.GetValue &&& 0x01E0) >>> 5 < 2 ^ 4
            ∧ (e.GetValue &&& 0x001F) < 2 ^ 5
            ∧ e.GetValue = ((e.GetValue &&& 0xFE00) >>> 9) * 2 ^ (4 + 5)
                + ((e.GetValue &&& 0x01E0) >>> 5) * 2 ^ 5 + (e.GetValue &&& 0x001F))
      ∧ (((d.SetYear year).SetDay day).GetValue / 2 ^ 5 % 2 ^ 4 = d.GetValue / 2 ^ 5 % 2 ^ 4
        ∧ ((d.SetDay day).SetYear year).GetValue / 2 ^ 5 % 2 ^ 4 = d.GetValue / 2 ^ 5 % 2 ^ 4
        ∧ ((d.SetYear year).SetDay day).GetMonth = d.GetMonth
        ∧ ((d.SetDay day).SetYear year).GetMonth = d.GetMonth)
      ∧ (∀ e : AmiiboDate,
          (2000 ≤ e.GetYear ∧ e.GetYear - 2000 < 2 ^ 7)
            ∧ (e.GetMonth + 1) % 256 < 2 ^ 4
            ∧ e.GetDay < 2 ^ 5
            ∧ e.GetYear - 2000 = (e.GetValue &&& 0xFE00) >>> 9
            ∧ (e.GetMonth + 1) % 256 = (e.GetValue &&& 0x01E0) >>> 5
            ∧ e.GetDay = e.GetValue &&& 0x001F
            ∧ e.GetValue = (e.GetYear - 2000) * 2 ^ (4 + 5)
                + ((e.GetMonth + 1) % 256) * 2 ^ 5 + e.GetDay)
      ∧ (∀ e : AmiiboDate,
          ((e.SetYear year).GetValue % 2 ^ (4 + 5) = e.GetValue % 2 ^ (4 + 5)
              ∧ (e.SetYear year).GetYear = year
              ∧ (e.SetYear year).GetMonth = e.GetMonth
              ∧ (e.SetYear year).GetDay = e.GetDay)
            ∧ ((e.SetDay day).GetValue / 2 ^ 5 = e.GetValue / 2 ^ 5
              ∧ (e.SetDay day).GetDay = day
              ∧ (e.SetDay day).GetYear = e.GetYear
              ∧ (e.SetDay day).GetMonth = e.GetMonth))
      ∧ (∀ (e : AmiiboDate) (month : Nat), 1 ≤ month ∧ month ≤ 12 →
          (e.SetMonth month).GetValue / 2 ^ (4 + 5) = e.GetValue / 2 ^ (4 + 5)
            ∧ (e.SetMonth month).GetValue % 2 ^ 5 = e.GetValue % 2 ^ 5
            ∧ (e.SetMonth month).GetValue / 2 ^ 5 % 2 ^ 4 = month + 1
            ∧ (e.SetMonth month).GetMonth = month
            ∧ (e.SetMonth month).GetYear = e.GetYear
            ∧ (e.SetMonth month).GetDay = e.GetDay) := by
  have hv := d.GetValue_lt
  have hd31 : day ≤ 31 := hd.2
  refine ⟨⟨AmiiboDate.GetValue_lt _, ?_, ?_⟩, ⟨AmiiboDate.GetValue_lt _, ?_, ?_⟩, ?_,
    ?_, ?_, ?_, ?_⟩
  · rw [Nat.shiftRight_eq_div_pow, AmiiboDate.GetValue_SetDay _ _ hd31,
      AmiiboDate.GetValue_SetYear]
    omega
  · rw [AmiiboDate.GetValue_SetDay _ _ hd31, AmiiboDate.GetValue_SetYear]
    omega
  · rw [Nat.shiftRight_eq_div_pow, AmiiboDate.GetValue_SetYear,
      AmiiboDate.GetValue_SetDay _ _ hd31]
    omega
  · rw [AmiiboDate.GetValue_SetYear, AmiiboDate.GetValue_SetDay _ _ hd31]
    omega
  · intro e
    have he := e.GetValue_lt
    rw [and_FE00, and_01E0, and_001F, Nat.shiftRight_eq_div_pow, Nat.shiftRight_eq_div_pow]
    omega
  · simp only [AmiiboDate.GetMonth_eq, AmiiboDate.GetValue_SetYear,
      AmiiboDate.GetValue_SetDay _ _ hd31]
    omega
  · intro e
    have he := e.GetValue_lt
    simp only [AmiiboDate.GetYear_eq, AmiiboDate.GetMonth_eq, AmiiboDate.GetDay_eq,
      and_FE00, and_01E0, and_001F, Nat.shiftRight_eq_div_pow, true_and]
    omega
  · intro e
    have he := e.GetValue_lt
    simp only [AmiiboDate.GetYear_eq, AmiiboDate.GetMonth_eq, AmiiboDate.GetDay_eq,
      AmiiboDate.GetValue_SetYear, AmiiboDate.GetValue_SetDay _ _ hd31]
    omega
  · intro e month hm
    have he := e.GetValue_lt
    have hm14 : month ≤ 14 := by omega
    simp only [AmiiboDate.GetYear_eq, AmiiboDate.GetMonth_eq, AmiiboDate.GetDay_eq,
      AmiiboDate.GetValue_SetMonth _ _ hm14]
    omega

/-- Witness of C4: year 2127 and day 31 written over the stored value 0x00FF,
and June written over it without touching year or day. -/
theorem year_day_bit_layout_witness :
    (2000 ≤ 2127 ∧ 2127 ≤ 2127) ∧ (1 ≤ 31 ∧ 31 ≤ 31)
      ∧ (((AmiiboDate.mk 0x00FF).SetYear 2127).SetDay 31).GetValue >>> 9 = 2127 - 2000
      ∧ (((AmiiboDate.mk 0x00FF).SetDay 31).SetYear 2127).GetValue % 2 ^ 5 = 31
      ∧ (((AmiiboDate.mk 0x00FF).SetYear 2127).SetDay 31).GetMonth
          = (AmiiboDate.mk 0x00FF).GetMonth
      ∧ (1 ≤ 6 ∧ 6 ≤ 12)
      ∧ ((AmiiboDate.mk 0x00FF).SetMonth 6).GetValue / 2 ^ 5 % 2 ^ 4 = 6 + 1
      ∧ ((AmiiboDate.mk 0x00FF).SetMonth 6).GetYear = (AmiiboDate.mk 0x00FF).GetYear
      ∧ ((AmiiboDate.mk 0x00FF).SetMonth 6).GetDay = (AmiiboDate.mk 0x00FF).GetDay :=
  ⟨by decide, by decide,
    (year_day_bit_layout ⟨0x00FF⟩ 2127 31 (by decide) (by decide)).1.2.1,
    (year_day_bit_layout ⟨0x00FF⟩ 2127 31 (by decide) (by decide)).2.1.2.2,
    (year_day_bit_layout ⟨0x00FF⟩ 2127 31 (by decide) (by decide)).2.2.2.1.2.2.1,
    by decide,
    ((year_day_bit_layout ⟨0x00FF⟩ 2127 31 (by decide) (by decide)).2.2.2.2.2.2
      ⟨0x00FF⟩ 6 (by decide)).2.2.1,
    ((year_day_bit_layout ⟨0x00FF⟩ 2127 31 (by decide) (by decide)).2.2.2.2.2.2
      ⟨0x00FF⟩ 6 (by decide)).2.2.2.2.1,
    ((year_day_bit_layout ⟨0x00FF⟩ 2127 31 (by decide) (by decide)).2.2.2.2.2.2
      ⟨0x00FF⟩ 6 (by decide)).2.2.2.2.2⟩

/-- C9. The packed date is stored big-endian. For every `AmiiboDate` reached
from a stored `u16` by any sequence of `SetYear`/`SetMonth`/`SetDay` calls,
`raw_date` is a `u16` and equals the byte swap of `GetValue()`: the first
stored byte (the low byte of `raw_date` on the little-endian host) is the high
byte of the packed value and the second stored byte is its low byte. `swap16`
is an involution on `u16`, so `GetValue()` gives back exactly the packed value
that a setter stored through `swap16`. -/
theorem raw_date_big_endian (d : AmiiboDate) (hd : d.raw_date < 65536) (ops : List DateOp) :
    (applyOps ops d).raw_date < 65536
      ∧ (applyOps ops d).raw_date = swap16 (applyOps ops d).GetValue
      ∧ (applyOps ops d).raw_date % 256 = (applyOps ops d).GetValue / 256
      ∧ (applyOps ops d).raw_date / 256 = (applyOps ops d).GetValue % 256
      ∧ (∀ p : Nat, p < 65536 →
          swap16 (swap16 p) = p ∧ (AmiiboDate.mk (swap16 p)).GetValue = p)
      ∧ ∀ year month day : Nat,
          (d.SetYear year).GetValue
              = ((d.GetValue &&& compl32 0xFE00) ||| toU16 (shl ((year : Int) - 2000) 9)) % 65536
            ∧ (d.SetMonth month).GetValue
              = ((d.GetValue &&& compl32 0x01E0) ||| toU16 (shl ((month : Int) + 1) 5)) % 65536
            ∧ (d.SetDay day).GetValue
              = ((d.GetValue &&& compl32 0x001F) ||| toU16 (day : Int)) % 65536 := by
  have h := applyOps_raw_date_lt ops d hd
  have hs := swap16_GetValue _ h
  refine ⟨h, hs.symm, ?_, ?_, ?_, ?_⟩
  · unfold AmiiboDate.GetValue
    rw [swap16_eq]
    omega
  · unfold AmiiboDate.GetValue
    rw [swap16_eq]
    omega
  · intro p hp
    have e : swap16 (swap16 p) = p := by
      rw [swap16_swap16]
      exact Nat.mod_eq_of_lt hp
    exact ⟨e, e⟩
  · intro year month day
    exact ⟨swap16_swap16 _, swap16_swap16 _, swap16_swap16 _⟩

/-- Witness of C9: the default date after `SetYear(2022)`, `SetMonth(9)`,
`SetDay(30)` has packed value 0x2D5E and stored bytes 0x2D, 0x5E. -/
theorem raw_date_big_endian_witness :
    (AmiiboDate.mk 0).raw_date < 65536
      ∧ (applyOps [DateOp.setYear 2022, DateOp.setMonth 9, DateOp.setDay 30]
          (AmiiboDate.mk 0)).raw_date % 256
        = (applyOps [DateOp.setYear 2022, DateOp.setMonth 9, DateOp.setDay 30]
          (AmiiboDate.mk 0)).GetValue / 256
      ∧ (applyOps [DateOp.setYear 2022, DateOp.setMonth 9, DateOp.setDay 30]
          (AmiiboDate.mk 0)).GetValue = 0x2D5E :=
  ⟨by decide,
    (raw_date_big_endian (AmiiboDate.mk 0) (by decide)
      [DateOp.setYear 2022, DateOp.setMonth 9, DateOp.setDay 30]).2.2.1,
    by decide⟩

/-! ## The settings byte -/

theorem shiftLeft_and_bit (value p : Nat) :
    (value <<< p) &&& ((2 ^ 1 - 1) * 2 ^ p) = (value % 2) * 2 ^ p := by
  rw [and_field, Nat.shiftLeft_eq, Nat.mul_div_cancel _ (Nat.two_pow_pos p), Nat.pow_one]

theorem BitField.Value_bit (raw p : Nat) :
    (raw &&& ((2 ^ 1 - 1) * 2 ^ p)) >>> p = (raw >>> p) &&& 1 := by
  rw [and_field, Nat.shiftRight_eq_div_pow, Nat.shiftRight_eq_div_pow,
    Nat.mul_div_cancel _ (Nat.two_pow_pos p), Nat.and_one_is_mod, Nat.pow_one]

theorem Settings.amiibo_Assign_low_bit (raw value : Nat) :
    Settings.amiibo_initialized.Assign raw value
      = Settings.amiibo_initialized.Assign raw (value % 2) := by
  show ((raw &&& (255 - 16)) ||| ((value <<< 4) &&& ((2 ^ 1 - 1) * 2 ^ 4))) % 256
    = ((raw &&& (255 - 16)) ||| (((value % 2) <<< 4) &&& ((2 ^ 1 - 1) * 2 ^ 4))) % 256
  rw [shiftLeft_and_bit, shiftLeft_and_bit, Nat.mod_mod]

theorem Settings.appdata_Assign_low_bit (raw value : Nat) :
    Settings.appdata_initialized.Assign raw value
      = Settings.appdata_initialized.Assign raw (value % 2) := by
  show ((raw &&& (255 - 32)) ||| ((value <<< 5) &&& ((2 ^ 1 - 1) * 2 ^ 5))) % 256
    = ((raw &&& (255 - 32)) ||| (((value % 2) <<< 5) &&& ((2 ^ 1 - 1) * 2 ^ 5))) % 256
  rw [shiftLeft_and_bit, shiftLeft_and_bit, Nat.mod_mod]

set_option maxRecDepth 100000 in
theorem Settings.amiibo_Assign_small :
    ∀ raw < 256, ∀ b < 2,
      Settings.amiibo_initialized.Value (Settings.amiibo_initialized.Assign raw b) = b
        ∧ Settings.amiibo_initialized.Assign raw b &&& 0xEF = raw &&& 0xEF
        ∧ Settings.amiibo_initialized.Assign raw b < 256 := by
  decide

set_option maxRecDepth 100000 in
theorem Settings.appdata_Assign_small :
    ∀ raw < 256, ∀ b < 2,
      Settings.appdata_initialized.Value (Settings.appdata_initialized.Assign raw b) = b
        ∧ Settings.appdata_initialized.Assign raw b &&& 0xDF = raw &&& 0xDF
        ∧ Settings.appdata_initialized.Assign raw b < 256 := by
  decide

/-- C8. Settings bit field: for every byte `raw`, `amiibo_initialized` reads
bit 4, `(raw >> 4) & 1`, and `appdata_initialized` reads bit 5,
`(raw >> 5) & 1`. Assigning a value to either flag stores the low bit of the
value in that bit and leaves the other seven bits of `raw` as they were (mask
0xEF for bit 4, mask 0xDF for bit 5), the result still being one byte. A
default-constructed `Settings` has `raw = 0`, so both flags and all reserved
bits are zero. -/
theorem settings_bit_field (s : Settings) (hs : s.raw < 256) (value : Nat) :
    Settings.amiibo_initialized.Value s.raw = (s.raw >>> 4) &&& 1
      ∧ Settings.appdata_initialized.Value s.raw = (s.raw >>> 5) &&& 1
      ∧ (Settings.amiibo_initialized.Value (Settings.amiibo_initialized.Assign s.raw value)
            = value % 2
          ∧ Settings.amiibo_initialized.Assign s.raw value &&& 0xEF = s.raw &&& 0xEF
          ∧ Settings.amiibo_initialized.Assign s.raw value < 256)
      ∧ (Settings.appdata_initialized.Value (Settings.appdata_initialized.Assign s.raw value)
            = value % 2
          ∧ Settings.appdata_initialized.Assign s.raw value &&& 0xDF = s.raw &&& 0xDF
          ∧ Settings.appdata_initialized.Assign s.raw value < 256)
      ∧ ({} : Settings).raw = 0
      ∧ Settings.amiibo_initialized.Value ({} : Settings).raw = 0
      ∧ Settings.appdata_initialized.Value ({} : Settings).raw = 0 := by
  have hb : value % 2 < 2 := Nat.mod_lt _ (by decide)
  refine ⟨BitField.Value_bit s.raw 4, BitField.Value_bit s.raw 5, ?_, ?_, rfl, rfl, rfl⟩
  · rw [Settings.amiibo_Assign_low_bit]
    exact Settings.amiibo_Assign_small s.raw hs (value % 2) hb
  · rw [Settings.appdata_Assign_low_bit]
    exact Settings.appdata_Assign_small s.raw hs (value % 2) hb

/-- Witness of C8: the byte 0xA5 with the value 0xFF assigned to a flag. -/
theorem settings_bit_field_witness :
    (Settings.mk 0xA5).raw < 256
      ∧ Settings.amiibo_initialized.Value (Settings.mk 0xA5).raw = 0
      ∧ Settings.appdata_initialized.Value (Settings.mk 0xA5).raw = 1
      ∧ Settings.amiibo_initialized.Assign (Settings.mk 0xA5).raw 0xFF = 0xB5
      ∧ Settings.amiibo_initialized.Assign (Settings.mk 0xA5).raw 0xFF &&& 0xEF
          = (Settings.mk 0xA5).raw &&& 0xEF :=
  ⟨by decide, by decide, by decide, by decide,
    (settings_bit_field (Settings.mk 0xA5) (by decide) 0xFF).2.2.1.2.1⟩

/-! ## The layouts -/

theorem memberAlign_pack_one (t : CType) (h : 0 < t.align) : memberAlign (some 1) t = 1 := by
  show min 1 t.align = 1
  omega

theorem Ver3StoreData_packed (mii : Nat) (h : 0 < mii) :
    memberAlign (some 1) (Ver3StoreData mii) = memberAlign (some 1) (Ver3StoreData 1) := by
  rw [memberAlign_pack_one _ h, memberAlign_pack_one _ (by decide)]

theorem EncryptedAmiiboFile_place_eq (mii : Nat) (h : 0 < mii) :
    place (some 1) 0 (EncryptedAmiiboFile.members mii)
      = place (some 1) 0 (EncryptedAmiiboFile.members 1) := by
  simp only [EncryptedAmiiboFile.members, place, Ver3StoreData_packed mii h]
  rfl

theorem EncryptedAmiiboFile_ctype_eq (mii : Nat) (h : 0 < mii) :
    EncryptedAmiiboFile.ctype mii = EncryptedAmiiboFile.ctype 1 := by
  have e : structAlign (some 1) (EncryptedAmiiboFile.members mii)
      = structAlign (some 1) (EncryptedAmiiboFile.members 1) := by
    simp only [EncryptedAmiiboFile.members, structAlign, List.foldl,
      Ver3StoreData_packed mii h]
  unfold EncryptedAmiiboFile.ctype structType structSize
  rw [EncryptedAmiiboFile_place_eq mii h, e]

theorem EncryptedNTAG215File_members_eq (mii : Nat) (h : 0 < mii) :
    EncryptedNTAG215File.members mii = EncryptedNTAG215File.members 1 := by
  unfold EncryptedNTAG215File.members
  rw [EncryptedAmiiboFile_ctype_eq mii h]

theorem EncryptedNTAG215File_flat_eq (mii : Nat) (h : 0 < mii) :
    EncryptedNTAG215File.flat mii = EncryptedNTAG215File.flat 1 := by
  unfold EncryptedNTAG215File.flat
  rw [EncryptedNTAG215File_members_eq mii h, EncryptedAmiiboFile_place_eq mii h]

theorem NTAG215File_place_eq (mii : Nat) (h : 0 < mii) :
    place (some 1) 0 (NTAG215File.members mii)
      = place (some 1) 0 (NTAG215File.members 1) := by
  simp only [NTAG215File.members, place, Ver3StoreData_packed mii h]
  rfl

theorem NTAG215File_ctype_eq (mii : Nat) (h : 0 < mii) :
    NTAG215File.ctype mii = NTAG215File.ctype 1 := by
  have e : structAlign (some 1) (NTAG215File.members mii)
      = structAlign (some 1) (NTAG215File.members 1) := by
    simp only [NTAG215File.members, structAlign, List.foldl, Ver3StoreData_packed mii h]
  unfold NTAG215File.ctype structType structSize
  rw [NTAG215File_place_eq mii h, e]

/-- C5. The encrypted tag image is exactly 540 (0x21C) bytes, whatever the
alignment of `Ver3StoreData` (taken as 0x60 bytes): the members of
`EncryptedNTAG215File` are 10, 2, 4, 504, 4, 4, 4 and 8 bytes wide, they sum
to 540, which is `sizeof(EncryptedNTAG215File)`, and they lie one directly
after the other from offset 0 (no implicit padding). The member widths of
`EncryptedAmiiboFile` sum to 504 (0x1F8), its size, again without padding; its
application area is 216 bytes and its settings block 32 bytes. -/
theorem encrypted_image_size (mii : Nat) (h : 0 < mii) :
    (EncryptedNTAG215File.members mii).map (fun m => (m.name, m.type.size))
        = [(Field.uuid, 10), (Field.static_lock, 2), (Field.compability_container, 4),
            (Field.user_memory, 504), (Field.dynamic_lock, 4), (Field.CFG0, 4),
            (Field.CFG1, 4), (Field.password, 8)]
      ∧ sumSizes (EncryptedNTAG215File.members mii) = 540
      ∧ (EncryptedNTAG215File.ctype mii).size = 540
      ∧ contiguousFrom 0 (place none 0 (EncryptedNTAG215File.members mii)) = true
      ∧ sumSizes (EncryptedAmiiboFile.members mii) = 504
      ∧ (EncryptedAmiiboFile.ctype mii).size = 504
      ∧ contiguousFrom 0 (place (some 1) 0 (EncryptedAmiiboFile.members mii)) = true
      ∧ (Ver3StoreData mii).size = 0x60
      ∧ ApplicationArea.size = 216
      ∧ AmiiboSettings.ctype.size = 32
      ∧ sumSizes AmiiboSettings.members = 32
      ∧ (⟨Field.application_area, ApplicationArea⟩ : Member) ∈ EncryptedAmiiboFile.members mii
      ∧ (⟨Field.settings, AmiiboSettings.ctype⟩ : Member) ∈ EncryptedAmiiboFile.members mii := by
  unfold EncryptedNTAG215File.ctype
  rw [EncryptedNTAG215File_members_eq mii h, EncryptedAmiiboFile_ctype_eq mii h,
    EncryptedAmiiboFile_place_eq mii h]
  have e : sumSizes (EncryptedAmiiboFile.members mii)
      = sumSizes (EncryptedAmiiboFile.members 1) := rfl
  rw [e]
  refine ⟨by decide, by decide, by decide, by decide, by decide, by decide, by decide, rfl,
    by decide, by decide, by decide, ?_, ?_⟩
  · simp [EncryptedAmiiboFile.members]
  · simp [EncryptedAmiiboFile.members]

/-- Witness of C5: `Ver3StoreData` aligned to 4 bytes. -/
theorem encrypted_image_size_witness :
    0 < 4 ∧ sumSizes (EncryptedNTAG215File.members 4) = 540
      ∧ (EncryptedNTAG215File.ctype 4).size = 540
      ∧ (EncryptedAmiiboFile.ctype 4).size = 504 :=
  ⟨by decide, (encrypted_image_size 4 (by decide)).2.1,
    (encrypted_image_size 4 (by decide)).2.2.1,
    (encrypted_image_size 4 (by decide)).2.2.2.2.2.1⟩

/-- C6. Field order and offsets of the encrypted image: with the members of
`user_memory` in place of `user_memory`, the members of `EncryptedNTAG215File`
occupy, in declaration order, the byte ranges (first..last) UID 0..9, static
lock 10..11 and capability container 12..15, marker byte 16, write counter
17..18, unknown byte 19, settings 20..51, first authentication tag 52..83,
model info 84..95, keygen salt 96..127, second authentication tag 128..159,
avatar blob 160..255, title id 256..263, application write counter 264..265,
application area id 266..269, two unknown bytes 270..271, integrity hash
272..303, application area 304..519, dynamic lock 520..523 and the config
words 524..527 and 528..531, password 532..539; each member starts where the
one before it ends, and the last one ends at 540. -/
theorem encrypted_image_offsets (mii : Nat) (h : 0 < mii) :
    byteRanges (EncryptedNTAG215File.flat mii)
        = [(Field.uuid, 0, 9), (Field.static_lock, 10, 11),
            (Field.compability_container, 12, 15), (Field.constant_value, 16, 16),
            (Field.write_counter, 17, 18), (Field.padding, 19, 19),
            (Field.settings, 20, 51), (Field.hmac_tag, 52, 83),
            (Field.model_info, 84, 95), (Field.keygen_salt, 96, 127),
            (Field.hmac_data, 128, 159), (Field.owner_mii, 160, 255),
            (Field.title_id, 256, 263), (Field.applicaton_write_counter, 264, 265),
            (Field.application_area_id, 266, 269), (Field.unknown, 270, 271),
            (Field.hash, 272, 303), (Field.application_area, 304, 519),
            (Field.dynamic_lock, 520, 523), (Field.CFG0, 524, 527),
            (Field.CFG1, 528, 531), (Field.password, 532, 539)]
      ∧ contiguousFrom 0 (EncryptedNTAG215File.flat mii) = true
      ∧ endOffset (EncryptedNTAG215File.flat mii) = 540 := by
  rw [EncryptedNTAG215File_flat_eq mii h]
  exact ⟨by decide, by decide, by decide⟩

/-- Witness of C6: `Ver3StoreData` aligned to 8 bytes. -/
theorem encrypted_image_offsets_witness :
    0 < 8 ∧ contiguousFrom 0 (EncryptedNTAG215File.flat 8) = true
      ∧ endOffset (EncryptedNTAG215File.flat 8) = 540 :=
  ⟨by decide, (encrypted_image_offsets 8 (by decide)).2⟩

/-- C7. The decrypted image has the same logical fields as the encrypted one:
the (field, width) entries of `NTAG215File` are a permutation of the entries of
`EncryptedNTAG215File` with `user_memory` replaced by the members of
`EncryptedAmiiboFile`, once the 10-byte `uuid` is counted as the 2-byte `uuid2`
plus the 8-byte `uuid`; both structs are 540 bytes, the sum of their entries. -/
theorem decrypted_image_same_fields (mii : Nat) (h : 0 < mii) :
    List.Perm (entries (place (some 1) 0 (NTAG215File.members mii)))
        (splitUuid (entries (EncryptedNTAG215File.flat mii)))
      ∧ ((entries (place (some 1) 0 (NTAG215File.members mii))).map Prod.snd).sum = 540
      ∧ ((entries (EncryptedNTAG215File.flat mii)).map Prod.snd).sum = 540
      ∧ ((splitUuid (entries (EncryptedNTAG215File.flat mii))).map Prod.snd).sum = 540
      ∧ (NTAG215File.ctype mii).size = 540
      ∧ (EncryptedNTAG215File.ctype mii).size = 540 := by
  unfold EncryptedNTAG215File.ctype
  rw [EncryptedNTAG215File_flat_eq mii h, NTAG215File_place_eq mii h,
    NTAG215File_ctype_eq mii h, EncryptedNTAG215File_members_eq mii h]
  exact ⟨by decide, by decide, by decide, by decide, by decide, by decide⟩

/-- Witness of C7: `Ver3StoreData` aligned to 2 bytes. -/
theorem decrypted_image_same_fields_witness :
    0 < 2 ∧ List.Perm (entries (place (some 1) 0 (NTAG215File.members 2)))
        (splitUuid (entries (EncryptedNTAG215File.flat 2)))
      ∧ (NTAG215File.ctype 2).size = 540 :=
  ⟨by decide, (decrypted_image_same_fields 2 (by decide)).1,
    (decrypted_image_same_fields 2 (by decide)).2.2.2.2.1⟩

/-- C10. The host-facing records have the sizes of their `static_assert`s and
no implicit padding (the size is the sum of the declared member widths and the
members lie one directly after the other): `TagInfo` is 0x58 bytes,
`CommonInfo` 0x40, `ModelInfo` 0x40 and `RegisterInfo` 0x100, with `CharInfo`
taken as 0x58 bytes at any alignment a type of that size can have (1, 2, 4 or
8). `AmiiboName` holds 4 * 10 + 1 = 41 bytes, and the name member of
`AmiiboSettings` is an array of exactly 10 16-bit units. -/
theorem host_record_sizes (mii : Nat) (h : mii ∈ [1, 2, 4, 8]) :
    (TagInfo.ctype.size = 0x58 ∧ sumSizes TagInfo.members = 0x58
        ∧ contiguousFrom 0 (place none 0 TagInfo.members) = true)
      ∧ (CommonInfo.ctype.size = 0x40 ∧ sumSizes CommonInfo.members = 0x40
        ∧ contiguousFrom 0 (place none 0 CommonInfo.members) = true)
      ∧ (ModelInfo.ctype.size = 0x40 ∧ sumSizes ModelInfo.members = 0x40
        ∧ contiguousFrom 0 (place none 0 ModelInfo.members) = true)
      ∧ ((RegisterInfo.ctype mii).size = 0x100 ∧ sumSizes (RegisterInfo.members mii) = 0x100
        ∧ contiguousFrom 0 (place none 0 (RegisterInfo.members mii)) = true
        ∧ (CharInfo mii).size = 0x58)
      ∧ (AmiiboName.size = 4 * 10 + 1 ∧ AmiiboName.size = 41 ∧ amiibo_name_length = 10)
      ∧ ((⟨Field.amiibo_name, array u16_be 10⟩ : Member) ∈ AmiiboSettings.members
        ∧ u16_be.size * 8 = 16 ∧ (array u16_be 10).size = 10 * 2) := by
  simp only [List.mem_cons, List.mem_singleton, List.not_mem_nil, or_false] at h
  rcases h with rfl | rfl | rfl | rfl <;> decide

/-- Witness of C10: `CharInfo` aligned to 4 bytes. -/
theorem host_record_sizes_witness :
    4 ∈ [1, 2, 4, 8] ∧ (RegisterInfo.ctype 4).size = 0x100
      ∧ sumSizes (RegisterInfo.members 4) = 0x100 :=
  ⟨by decide, (host_record_sizes 4 (by decide)).2.2.2.1.1,
    (host_record_sizes 4 (by decide)).2.2.2.1.2.1⟩

/-! ## The setters on arbitrary arguments -/

theorem or_div_two_pow (a b k : Nat) : (a ||| b) / 2 ^ k = a / 2 ^ k ||| b / 2 ^ k := by
  apply Nat.eq_of_testBit_eq
  intro i
  simp only [← Nat.shiftRight_eq_div_pow, Nat.testBit_shiftRight, Nat.testBit_or]

theorem or_mod_two_pow (a b k : Nat) : (a ||| b) % 2 ^ k = a % 2 ^ k ||| b % 2 ^ k := by
  apply Nat.eq_of_testBit_eq
  intro i
  simp only [Nat.testBit_mod_two_pow, Nat.testBit_or, Bool.and_or_distrib_left]

theorem or_one_eq (a : Nat) : a ||| 1 = a / 2 * 2 + 1 := by
  have h1 := or_div_two_pow a 1 1
  have h2 := or_mod_two_pow a 1 1
  simp only [Nat.pow_one, Nat.reduceDiv, Nat.or_zero, Nat.reduceMod] at h1 h2
  have h3 : a % 2 ||| 1 = 1 := by
    rcases Nat.mod_two_eq_zero_or_one a with h | h <;> rw [h] <;> rfl
  rw [h3] at h2
  omega

theorem and_FFE0_eq (v : Nat) (h : v < 65536) : v &&& 0xFFE0 = v / 32 * 32 := by
  rw [AmiiboDate.and_FFE0 v h, and_compl_001F v h]

theorem and_FE1F_eq (v : Nat) (h : v < 65536) : v &&& 0xFE1F = v / 512 * 512 + v % 32 := by
  rw [AmiiboDate.and_FE1F v h, and_compl_01E0 v h]

/-- The packed value after `SetDay`, field by field: the year field is kept,
the month field takes the bits 7..5 of `day` on top of its own, the day field
is `day mod 32`. -/
theorem GetValue_SetDay_fields (d : AmiiboDate) (day : Nat) (hd : day < 256) :
    (d.SetDay day).GetValue / 512 = d.GetValue / 512
      ∧ (d.SetDay day).GetValue / 32 % 16 = (d.GetValue / 32 % 16) ||| (day / 32)
      ∧ (d.SetDay day).GetValue % 32 = day % 32 := by
  have h := d.GetValue_lt
  rw [AmiiboDate.GetValue_SetDay_bits d day hd, and_FFE0_eq _ h]
  have e9 := or_div_two_pow (d.GetValue / 32 * 32) day 9
  have e5 := or_div_two_pow (d.GetValue / 32 * 32) day 5
  have m5 := or_mod_two_pow (d.GetValue / 32 * 32) day 5
  have m4 := or_mod_two_pow (d.GetValue / 32 * 32 / 2 ^ 5) (day / 2 ^ 5) 4
  have z9 : day / 2 ^ 9 = 0 := Nat.div_eq_of_lt (by omega)
  have z5 : d.GetValue / 32 * 32 % 2 ^ 5 = 0 := by omega
  have a5 : d.GetValue / 32 * 32 / 2 ^ 5 = d.GetValue / 32 := by omega
  have b5 : day / 2 ^ 5 % 2 ^ 4 = day / 32 := by omega
  rw [z9, Nat.or_zero] at e9
  rw [z5, Nat.zero_or] at m5
  rw [← e5, b5, a5] at m4
  refine ⟨?_, ?_, ?_⟩
  · omega
  · simp only [Nat.reducePow] at m4
    exact m4
  · omega

/-- The packed value after `SetMonth(15)`: the month field is cleared and the
lowest year bit is set. -/
theorem GetValue_SetMonth_fifteen (d : AmiiboDate) :
    (d.SetMonth 15).GetValue = (d.GetValue / 1024 * 2 + 1) * 512 + d.GetValue % 32 := by
  have h := d.GetValue_lt
  rw [AmiiboDate.GetValue_SetMonth_bits d 15 (by decide), and_FE1F_eq _ h]
  have e9 := or_div_two_pow (d.GetValue / 512 * 512 + d.GetValue % 32) ((15 + 1) <<< 5) 9
  have m9 := or_mod_two_pow (d.GetValue / 512 * 512 + d.GetValue % 32) ((15 + 1) <<< 5) 9
  have c1 : ((15 + 1) <<< 5 : Nat) / 2 ^ 9 = 1 := by decide
  have c2 : ((15 + 1) <<< 5 : Nat) % 2 ^ 9 = 0 := by decide
  have a9 : (d.GetValue / 512 * 512 + d.GetValue % 32) / 2 ^ 9 = d.GetValue / 512 := by omega
  have b9 : (d.GetValue / 512 * 512 + d.GetValue % 32) % 2 ^ 9 = d.GetValue % 32 := by omega
  rw [c1, a9, or_one_eq] at e9
  rw [c2, b9, Nat.or_zero] at m9
  omega

/-- C11. `SetYear` wraps modulo 128 and touches only the year field: for
every stored `raw_date` and every `year` (below 2000 and above 2127 included),
after `SetYear(year)` `GetYear()` returns 2000 + ((year - 2000) mod 128), the
remainder taken non-negative, while `GetMonth()` and `GetDay()` return what they
returned before the call. -/
theorem set_year_wraps (d : AmiiboDate) (year : Nat) :
    (d.SetYear year).GetYear = 2000 + (((year : Int) - 2000) % 128).toNat
      ∧ (d.SetYear year).GetMonth = d.GetMonth
      ∧ (d.SetYear year).GetDay = d.GetDay := by
  have h := d.GetValue_lt
  simp only [AmiiboDate.GetYear_eq, AmiiboDate.GetMonth_eq, AmiiboDate.GetDay_eq,
    AmiiboDate.GetValue_SetYear]
  omega

/-- C12. `SetDay` is not masked to 5 bits: for every stored date with packed
value `v` and every 8-bit `day`, after `SetDay(day)` the packed value is
`(v & 0xFFE0) | day`. So `GetYear()` is unchanged, `GetDay()` returns
`day mod 32`, and the month field becomes its old value OR-ed with the upper
three bits of `day`: `GetMonth()` is unchanged for `day <= 31`, but `day = 32`
on the zero date turns the month field from 0 into 1 and `GetMonth()` from 255
into 0. -/
theorem set_day_unmasked (d : AmiiboDate) (day : Nat) (hd : day < 256) :
    (d.SetDay day).GetValue = (d.GetValue &&& 0xFFE0) ||| day
      ∧ (d.SetDay day).GetYear = d.GetYear
      ∧ (d.SetDay day).GetDay = day % 32
      ∧ (d.SetDay day).GetValue / 32 % 16 = (d.GetValue / 32 % 16) ||| (day / 32)
      ∧ (day ≤ 31 → (d.SetDay day).GetMonth = d.GetMonth)
      ∧ ((AmiiboDate.mk 0).GetValue / 32 % 16 = 0
        ∧ ((AmiiboDate.mk 0).SetDay 32).GetValue / 32 % 16 = 1
        ∧ (AmiiboDate.mk 0).GetMonth = 255
        ∧ ((AmiiboDate.mk 0).SetDay 32).GetMonth = 0) := by
  have h := d.GetValue_lt
  obtain ⟨fy, fm, fd⟩ := GetValue_SetDay_fields d day hd
  refine ⟨AmiiboDate.GetValue_SetDay_bits d day hd, ?_, ?_, fm, ?_, by decide⟩
  · rw [AmiiboDate.GetYear_eq, AmiiboDate.GetYear_eq, fy]
  · rw [AmiiboDate.GetDay_eq, fd]
  · intro h31
    have z : day / 32 = 0 := Nat.div_eq_of_lt (by omega)
    rw [z, Nat.or_zero] at fm
    rw [AmiiboDate.GetMonth_eq, AmiiboDate.GetMonth_eq, fm]

/-- Witness of C12: day 7 (at most 31) written over the stored value 0xCDAB. -/
theorem set_day_unmasked_witness :
    7 < 256 ∧ 7 ≤ 31
      ∧ ((AmiiboDate.mk 0xCDAB).SetDay 7).GetValue
          = ((AmiiboDate.mk 0xCDAB).GetValue &&& 0xFFE0) ||| 7
      ∧ ((AmiiboDate.mk 0xCDAB).SetDay 7).GetMonth = (AmiiboDate.mk 0xCDAB).GetMonth :=
  ⟨by decide, by decide, (set_day_unmasked ⟨0xCDAB⟩ 7 (by decide)).1,
    (set_day_unmasked ⟨0xCDAB⟩ 7 (by decide)).2.2.2.2.1 (by decide)⟩

/-- C13. `SetMonth` is not masked to 4 bits: for every stored date with packed
value `v` and every 8-bit `month`, after `SetMonth(month)` the packed value is
`(v & 0xFE1F) | (((month + 1) << 5) mod 2^16)`. So for `month <= 14`
`GetMonth()` returns `month` and `GetYear()` and `GetDay()` are unchanged,
whereas after `SetMonth(15)` the month field is 0, `GetMonth()` returns 255,
`GetDay()` is unchanged and bit 9, the lowest year bit, is set: `GetYear()`
becomes the old year with its offset made odd, which differs from the old year
exactly when the old year offset was even. -/
theorem set_month_unmasked (d : AmiiboDate) (month : Nat) (hm : month < 256) :
    (d.SetMonth month).GetValue
        = (d.GetValue &&& 0xFE1F) ||| (((month + 1) <<< 5) % 2 ^ 16)
      ∧ (month ≤ 14 →
          (d.SetMonth month).GetMonth = month
            ∧ (d.SetMonth month).GetYear = d.GetYear
            ∧ (d.SetMonth month).GetDay = d.GetDay)
      ∧ ((d.SetMonth 15).GetValue / 32 % 16 = 0
        ∧ (d.SetMonth 15).GetMonth = 255
        ∧ (d.SetMonth 15).GetDay = d.GetDay
        ∧ (d.SetMonth 15).GetValue / 2 ^ 9 % 2 = 1
        ∧ (d.SetMonth 15).GetYear = 2000 + ((d.GetYear - 2000) / 2 * 2 + 1)
        ∧ ((d.SetMonth 15).GetYear ≠ d.GetYear ↔ (d.GetYear - 2000) % 2 = 0)) := by
  have h := d.GetValue_lt
  have e : ((month + 1) <<< 5) % 2 ^ 16 = (month + 1) <<< 5 := by
    rw [Nat.shiftLeft_eq]
    omega
  refine ⟨?_, ?_, ?_⟩
  · rw [e]
    exact AmiiboDate.GetValue_SetMonth_bits d month hm
  · intro h14
    simp only [AmiiboDate.GetYear_eq, AmiiboDate.GetMonth_eq, AmiiboDate.GetDay_eq,
      AmiiboDate.GetValue_SetMonth d month h14]
    omega
  · simp only [AmiiboDate.GetYear_eq, AmiiboDate.GetMonth_eq, AmiiboDate.GetDay_eq,
      GetValue_SetMonth_fifteen]
    omega

/-- Witness of C13: month 14 (at most 14) written over the stored value
0x3412. -/
theorem set_month_unmasked_witness :
    14 < 256 ∧ 14 ≤ 14
      ∧ ((AmiiboDate.mk 0x3412).SetMonth 14).GetMonth = 14
      ∧ ((AmiiboDate.mk 0x3412).SetMonth 14).GetYear = (AmiiboDate.mk 0x3412).GetYear
      ∧ ((AmiiboDate.mk 0x3412).SetMonth 14).GetDay = (AmiiboDate.mk 0x3412).GetDay :=
  ⟨by decide, by decide, (set_month_unmasked ⟨0x3412⟩ 14 (by decide)).2.1 (by decide)⟩

/-- C14. Getter ranges on arbitrary stored data: for every stored `raw_date`,
`GetYear()` is in [2000, 2127], `GetDay()` is in [0, 31] and `GetMonth()` is
(month field - 1) mod 256, the month field being bits 8..5 of the packed
value: when the field is non-zero `GetMonth()` is the field minus one, in
[0, 14], and `GetMonth()` is 255 exactly when the field is 0. A
default-constructed `AmiiboDate` (`raw_date = 0`) reads as year 2000, month
255, day 0. -/
theorem getter_ranges (d : AmiiboDate) :
    (2000 ≤ d.GetYear ∧ d.GetYear ≤ 2127)
      ∧ d.GetDay ≤ 31
      ∧ d.GetMonth = ((((d.GetValue / 32 % 16 : Nat) : Int) - 1) % 256).toNat
      ∧ ((d.GetValue / 32 % 16 = 0 ∧ d.GetMonth = 255)
        ∨ (0 < d.GetValue / 32 % 16 ∧ d.GetMonth + 1 = d.GetValue / 32 % 16
          ∧ d.GetMonth ≤ 14))
      ∧ (d.GetMonth = 255 ↔ d.GetValue / 32 % 16 = 0)
      ∧ (({} : AmiiboDate).raw_date = 0
        ∧ ({} : AmiiboDate).GetYear = 2000
        ∧ ({} : AmiiboDate).GetMonth = 255
        ∧ ({} : AmiiboDate).GetDay = 0) := by
  have h := d.GetValue_lt
  refine ⟨?_, ?_, ?_, ?_, ?_, by decide⟩ <;>
    simp only [AmiiboDate.GetYear_eq, AmiiboDate.GetMonth_eq, AmiiboDate.GetDay_eq] <;>
    omega

end Service.NFP
